import Mathlib

/-!
Verification of the r2d2 generic connection pool (`src/lib.rs`).

The pool keeps a mutex-guarded pair `(conns, num_conns)` — a FIFO queue of
idle connections (`RingBuf<C>`) and a `u32` population counter — plus a
condition variable, an error handler and a scheduled thread pool.  We embed:

* the shared state `PoolInternals` and a labelled transition system `Step`
  whose steps are exactly the mutex-protected critical sections of the
  source (replenishment task success/failure, checkout pop, validation
  failure, `put_back` in both branches, and `thread_pool.clear()` from
  `Drop for Pool`), with `Reachable` its reflexive-transitive closure from
  the state `Pool::new` allocates;
* functional models of the loop body of `Pool::get`, of `put_back`, of the
  task scheduled by `add_connection`, of `Pool::new`, and of
  `Drop for PooledConnection`;
* a model of the scheduled executor (its source, `mod task`, is not part of
  the file set; it is modelled from the specification).

`u32` arithmetic is embedded as `Nat` with explicit reduction modulo `2^32`
(`incU32`, `decU32`), so that the underflow question for `num_conns -= 1`
is faithfully represented.
-/

namespace R2d2

/-- `2^32`, the modulus of Rust `u32` arithmetic. -/
def U32LIM : Nat := 4294967296

/-- Rust release-mode `u32` increment: `n + 1` wrapping modulo `2^32`. -/
def incU32 (n : Nat) : Nat := (n + 1) % U32LIM

/-- Rust release-mode `u32` decrement: `n - 1` wrapping modulo `2^32`
(underflow at `n = 0` wraps to `2^32 - 1`). -/
def decU32 (n : Nat) : Nat := (n + (U32LIM - 1)) % U32LIM

theorem incU32_eq_of_lt {n : Nat} (h : n + 1 < U32LIM) : incU32 n = n + 1 := by
  simp [incU32, U32LIM] at *
  omega

theorem decU32_eq_of_le {n : Nat} (h1 : 1 ≤ n) (h2 : n < U32LIM) :
    decU32 n = n - 1 := by
  simp [decU32, U32LIM] at *
  omega

/-- `struct PoolInternals<C> { conns: RingBuf<C>, num_conns: u32 }`.
The `RingBuf` is used only through `pop_front` and `push_back`, so a list
(front = head) embeds it; `num_conns` is a `u32`, kept as a `Nat` that every
source mutation changes through `incU32`/`decU32`. -/
structure PoolInternals (C : Type) where
  conns : List C
  num_conns : Nat
deriving Repr, DecidableEq

/-- Global state of one pool for the interleaving semantics: the
mutex-guarded `internals`, the number of connections currently popped out of
`conns` but still counted in `num_conns` (held by a `PooledConnection`
handle or in flight through the `is_valid` check of `Pool::get`), and the
number of replenishment tasks scheduled on the thread pool (queued or
running) that have not yet completed successfully. -/
structure PoolState (C : Type) where
  internals : PoolInternals C
  checkedOut : Nat
  pending : Nat
deriving Repr, DecidableEq

/-- One atomic step of the pool: each constructor is one mutex-protected
critical section of `src/lib.rs` (steps that do not touch the shared fields,
such as the condition-variable waits themselves, change no state and are
omitted). -/
inductive Step (C : Type) : PoolState C → PoolState C → Prop where
  /-- The task scheduled by `add_connection` when `manager.connect()`
  returns `Ok(conn)`: `conns.push_back(conn); num_conns += 1;
  cond.notify_one()`.  It can fire only while such a task is outstanding. -/
  | replenishOk (s : PoolState C) (c : C) (h : 1 ≤ s.pending) :
      Step C s ⟨⟨s.internals.conns ++ [c], incU32 s.internals.num_conns⟩,
                s.checkedOut, s.pending - 1⟩
  /-- The task scheduled by `add_connection` when `manager.connect()` fails:
  `handle_error(err); add_connection(Duration::seconds(1), ...)`.  The
  shared fields are untouched and the task count is unchanged (one task
  completes, one is rescheduled). -/
  | replenishErr (s : PoolState C) (h : 1 ≤ s.pending) :
      Step C s s
  /-- `Pool::get`: `internals.conns.pop_front()` returns `Some(conn)`; the
  connection becomes checked out (`num_conns` unchanged). -/
  | checkout (s : PoolState C) (c : C) (rest : List C)
      (h : s.internals.conns = c :: rest) :
      Step C s ⟨⟨rest, s.internals.num_conns⟩, s.checkedOut + 1, s.pending⟩
  /-- `Pool::get`, `test_on_check_out` and `is_valid` failed on a popped
  connection: `num_conns -= 1; add_connection(Duration::zero(), ...)`; the
  popped connection is discarded. -/
  | validateFail (s : PoolState C) (h : 1 ≤ s.checkedOut) :
      Step C s ⟨⟨s.internals.conns, decU32 s.internals.num_conns⟩,
                s.checkedOut - 1, s.pending + 1⟩
  /-- `Pool::put_back` with `has_broken` false: `conns.push_back(conn);
  cond.notify_one()`. -/
  | putBackOk (s : PoolState C) (c : C) (h : 1 ≤ s.checkedOut) :
      Step C s ⟨⟨s.internals.conns ++ [c], s.internals.num_conns⟩,
                s.checkedOut - 1, s.pending⟩
  /-- `Pool::put_back` with `has_broken` true: `num_conns -= 1`; the
  connection is destroyed. -/
  | putBackBroken (s : PoolState C) (h : 1 ≤ s.checkedOut) :
      Step C s ⟨⟨s.internals.conns, decU32 s.internals.num_conns⟩,
                s.checkedOut - 1, s.pending⟩
  /-- `Drop for Pool`: `thread_pool.clear()` cancels the queued
  replenishment tasks; tasks already dispatched to a worker keep running, so
  the task count drops to some `k ≤ pending`. -/
  | clear (s : PoolState C) (k : Nat) (h : k ≤ s.pending) :
      Step C s ⟨⟨s.internals.conns, s.internals.num_conns⟩, s.checkedOut, k⟩

/-- The state `Pool::new` allocates before any task runs: empty idle queue,
`num_conns = 0`, and `pool_size` replenishment tasks submitted by the
`for _ in 0..config.pool_size()` loop. -/
def initState (C : Type) (poolSize : Nat) : PoolState C :=
  ⟨⟨[], 0⟩, 0, poolSize⟩

/-- States reachable from construction by any interleaving of the pool's
critical sections. -/
inductive Reachable (C : Type) (poolSize : Nat) : PoolState C → Prop where
  | init : Reachable C poolSize (initState C poolSize)
  | step {s t : PoolState C} :
      Reachable C poolSize s → Step C s t → Reachable C poolSize t

/-- The inductive invariant: `num_conns` counts exactly the idle plus the
checked-out connections, and population plus outstanding replenishment
tasks never exceeds `pool_size`. -/
def PoolInv (poolSize : Nat) {C : Type} (s : PoolState C) : Prop :=
  s.internals.num_conns = s.internals.conns.length + s.checkedOut ∧
  s.internals.num_conns + s.pending ≤ poolSize

theorem poolInv_mk (poolSize : Nat) {C : Type} (conns : List C)
    (num co pending : Nat) :
    PoolInv poolSize (⟨⟨conns, num⟩, co, pending⟩ : PoolState C) ↔
      (num = conns.length + co ∧ num + pending ≤ poolSize) := Iff.rfl

theorem poolInv_init (C : Type) (poolSize : Nat) :
    PoolInv poolSize (initState C poolSize) := by
  rw [initState, poolInv_mk]
  simp

theorem poolInv_step {C : Type} {poolSize : Nat} (hps : poolSize < U32LIM)
    {s t : PoolState C} (hinv : PoolInv poolSize s) (hstep : Step C s t) :
    PoolInv poolSize t := by
  obtain ⟨h1, h2⟩ := hinv
  cases hstep with
  | replenishOk c h =>
      have hlt : s.internals.num_conns + 1 < U32LIM := by omega
      rw [poolInv_mk, incU32_eq_of_lt hlt, List.length_append, List.length_cons,
        List.length_nil]
      omega
  | replenishErr h => exact ⟨h1, h2⟩
  | checkout c rest h =>
      rw [h] at h1
      rw [List.length_cons] at h1
      rw [poolInv_mk]
      omega
  | validateFail h =>
      have hge : 1 ≤ s.internals.num_conns := by omega
      have hlt : s.internals.num_conns < U32LIM := by omega
      rw [poolInv_mk, decU32_eq_of_le hge hlt]
      omega
  | putBackOk c h =>
      rw [poolInv_mk, List.length_append, List.length_cons, List.length_nil]
      omega
  | putBackBroken h =>
      have hge : 1 ≤ s.internals.num_conns := by omega
      have hlt : s.internals.num_conns < U32LIM := by omega
      rw [poolInv_mk, decU32_eq_of_le hge hlt]
      omega
  | clear k h =>
      rw [poolInv_mk]
      omega

theorem poolInv_reachable {C : Type} {poolSize : Nat} (hps : poolSize < U32LIM)
    {s : PoolState C} (h : Reachable C poolSize s) : PoolInv poolSize s := by
  induction h with
  | init => exact poolInv_init C poolSize
  | step _ hstep ih => exact poolInv_step hps ih hstep

/-! Functional model of the loop of `Pool::get`.

The loop body holds the mutex except in two windows: after `pop_front`
succeeds (`drop(internals)`) and during `cond.wait_timeout`.  At the two
points where the loop re-enters the mutex — reacquiring it after a failed
`is_valid`, and waking from `wait_timeout` — other threads may have changed
the internals, so the model consumes an `Interference` oracle item there:
the internals found on reacquisition, and (for the wait) the `no_timeout`
flag `Condvar::wait_timeout` returned.  When the call exits without further
touching the shared state no oracle item is consumed. -/

/-- What the environment did while `Pool::get` was off the mutex: the
internals it finds on reacquiring, and — when the reacquisition is the
return of `cond.wait_timeout` — the `no_timeout` component of the result. -/
structure Interference (C : Type) where
  internals : PoolInternals C
  noTimeout : Bool
deriving Repr, DecidableEq

/-- How a run of the `Pool::get` loop ends: `Ok(PooledConnection)` wrapping
`conn`, `Err(GetTimeout)`, or cut off still waiting (the oracle list ran
out; the loop itself never exits another way). -/
inductive GetOutcome (C : Type) where
  | ok (conn : C)
  | timeout
  | waiting
deriving Repr, DecidableEq

/-- A run of the `Pool::get` loop: how it ended, the internals the loop left
in the shared state, the errors passed to `error_handler.handle_error`, and
the delays passed to `add_connection`, both in call order. -/
structure GetResult (C E : Type) where
  outcome : GetOutcome C
  internals : PoolInternals C
  errors : List E
  scheduled : List Nat
deriving Repr, DecidableEq

/-- The `loop` of `Pool::get`, entered with the mutex held on internals `i`:
`pop_front` on `Some(conn)` releases the mutex, validates when
`test_on_check_out` is set (`isValid c = some e` embeds
`is_valid(&mut conn) = Err(e)`), and on validation failure handles the
error, reacquires the mutex (consuming an oracle item), decrements
`num_conns`, schedules `add_connection(Duration::zero())` and continues;
on `None` it waits on the condition variable (consuming an oracle item) and
returns `Err(GetTimeout)` when the wait reports a timeout. -/
def get_loop {C E : Type} (test : Bool) (isValid : C → Option E) :
    List (Interference C) → PoolInternals C → GetResult C E
  | evs, i =>
    match i.conns with
    | conn :: rest =>
      if test then
        match isValid conn with
        | some e =>
          match evs with
          | [] => ⟨.waiting, ⟨rest, i.num_conns⟩, [e], [0]⟩
          | ev :: evs' =>
            let r := get_loop test isValid evs'
              ⟨ev.internals.conns, decU32 ev.internals.num_conns⟩
            ⟨r.outcome, r.internals, e :: r.errors, 0 :: r.scheduled⟩
        | none => ⟨.ok conn, ⟨rest, i.num_conns⟩, [], []⟩
      else ⟨.ok conn, ⟨rest, i.num_conns⟩, [], []⟩
    | [] =>
      match evs with
      | [] => ⟨.waiting, i, [], []⟩
      | ev :: evs' =>
        if ev.noTimeout then get_loop test isValid evs' ev.internals
        else ⟨.timeout, ev.internals, [], []⟩
  termination_by structural evs => evs

/-- The observable actions of one `Pool::put_back` call, in program order. -/
inductive PutBackAction where
  | callHasBroken
  | lockMutex
  | decNumConns
  | pushIdle
  | notifyOne
  | unlockMutex
deriving Repr, DecidableEq

/-- The action trace of `Pool::put_back`: `has_broken` is called first
("before locking anyways"), then the mutex is acquired, then either
`num_conns -= 1` (broken) or `push_back` plus `notify_one`. -/
def put_back_actions (broken : Bool) : List PutBackAction :=
  [.callHasBroken, .lockMutex] ++
    (if broken then [.decNumConns] else [.pushIdle, .notifyOne]) ++
    [.unlockMutex]

/-- Effect of one `Pool::put_back` call on the shared state: the internals
it leaves, whether `cond.notify_one()` was called, and the delays passed to
`add_connection` (the body contains no such call). -/
structure PutBackResult (C : Type) where
  internals : PoolInternals C
  notified : Bool
  scheduled : List Nat
deriving Repr, DecidableEq

/-- `Pool::put_back(conn)` with `broken = manager.has_broken(&mut conn)`:
if broken, `num_conns -= 1` and the connection is dropped; otherwise
`conns.push_back(conn); cond.notify_one()`. -/
def put_back {C : Type} (broken : Bool) (conn : C) (i : PoolInternals C) :
    PutBackResult C :=
  if broken then ⟨⟨i.conns, decU32 i.num_conns⟩, false, []⟩
  else ⟨⟨i.conns ++ [conn], i.num_conns⟩, true, []⟩

/-- Effect of one run of the closure scheduled by `add_connection`: the
internals it leaves, whether `cond.notify_one()` was called, the errors
passed to `handle_error`, and the delays (in seconds) of the
`add_connection` calls it makes. -/
structure ReplenishResult (C E : Type) where
  internals : PoolInternals C
  notified : Bool
  errors : List E
  rescheduled : List Nat
deriving Repr, DecidableEq

/-- The closure `add_connection` schedules, applied to the result of
`shared.manager.connect()`: on `Ok(conn)` it locks and runs
`conns.push_back(conn); num_conns += 1; notify_one()`; on `Err(err)` it
runs `handle_error(err)` and `add_connection(Duration::seconds(1), ...)`. -/
def add_connection_task {C E : Type} (res : Except E C) (i : PoolInternals C) :
    ReplenishResult C E :=
  match res with
  | .ok conn => ⟨⟨i.conns ++ [conn], incU32 i.num_conns⟩, true, [], []⟩
  | .error err => ⟨⟨i.conns, i.num_conns⟩, false, [err], [1]⟩

/-- The self-rescheduling chain of one replenishment slot, driven by the
successive results of `manager.connect()`: each `Err` is handled and
retried, the first `Ok` inserts the connection.  Returns the internals
after the chain, whether an insertion happened, and how many errors were
handled (one per 1-second reschedule); an all-`Err` prefix leaves the
chain still scheduled (`false`). -/
def add_connection_retries {C E : Type} (outcomes : List (Except E C))
    (i : PoolInternals C) : PoolInternals C × Bool × Nat :=
  match outcomes with
  | [] => (i, false, 0)
  | .ok conn :: _ => (⟨i.conns ++ [conn], incU32 i.num_conns⟩, true, 0)
  | .error _ :: rest =>
    let r := add_connection_retries rest i
    (r.1, r.2.1, r.2.2 + 1)

/-- `pub struct InitializationError;` -/
inductive InitializationError where
  | mk
deriving Repr, DecidableEq

/-- The configuration fields `Pool::new` and `Pool::get` read (`config`
module; the value is frozen at construction). -/
structure Config where
  pool_size : Nat
  helper_threads : Nat
  connection_timeout : Nat
  test_on_check_out : Bool
  initialization_fail_fast : Bool
deriving Repr, DecidableEq

/-- A run of `Pool::new`: the internals it allocates, the delays of the
`add_connection` calls it submits, the timeout it hands to
`cond.wait_timeout_with` (`none` when it does not wait), and its return
value. -/
structure NewResult (C : Type) where
  internals : PoolInternals C
  scheduled : List Nat
  waitTimeout : Option Nat
  result : Except InitializationError Unit
deriving Repr

/-- `Pool::new`: allocates `PoolInternals { conns: RingBuf::new(),
num_conns: 0 }`, submits `pool_size` calls `add_connection(Duration::zero())`,
and, when `initialization_fail_fast` is set, waits on the condition
variable with timeout `connection_timeout` for the predicate
`num_conns == pool_size`; `waitInternals` is the internals the
wait observed last, so the predicate failed at the deadline exactly when
its `num_conns` differs from `pool_size`, and then `Err(InitializationError)`
is returned. -/
def new {C : Type} (config : Config) (waitInternals : PoolInternals C) :
    NewResult C :=
  let internals : PoolInternals C := ⟨[], 0⟩
  let scheduled : List Nat := List.replicate config.pool_size 0
  if config.initialization_fail_fast then
    if waitInternals.num_conns == config.pool_size then
      ⟨internals, scheduled, some config.connection_timeout, .ok ()⟩
    else
      ⟨internals, scheduled, some config.connection_timeout,
        .error InitializationError.mk⟩
  else ⟨internals, scheduled, none, .ok ()⟩

/-- Modelled from the spec: the Scheduled Executor (`ScheduledThreadPool`
of the `task` module, whose source is not in the file set).  §4.1: it holds
queued tasks not yet dispatched to a worker and tasks already dispatched;
`clear()` removes every queued task, already-dispatched tasks run to
completion. -/
structure ScheduledThreadPool (T : Type) where
  queued : List T
  running : List T
deriving Repr, DecidableEq

/-- Modelled from the spec: the executor operations — `run_after` enqueues
a task, a worker dispatches the next queued task, `clear` empties the
queue. -/
inductive ExecOp (T : Type) where
  | run_after (t : T)
  | dispatch
  | clear
deriving Repr, DecidableEq

/-- Modelled from the spec: effect of one executor operation. -/
def execStep {T : Type} : ExecOp T → ScheduledThreadPool T → ScheduledThreadPool T
  | .run_after t, e => ⟨e.queued ++ [t], e.running⟩
  | .dispatch, e =>
    match e.queued with
    | [] => e
    | t :: rest => ⟨rest, e.running ++ [t]⟩
  | .clear, e => ⟨[], e.running⟩

/-- `Drop for Pool`: `fn drop(&mut self) { self.shared.thread_pool.clear(); }`. -/
def poolDrop {T : Type} (e : ScheduledThreadPool T) : ScheduledThreadPool T :=
  execStep .clear e

/-- `pub struct PooledConnection<'a, M> { pool: &'a Pool<M>,
conn: Option<Connection> }` (the pool reference carries no state the
claims need). -/
structure PooledConnection (C : Type) where
  conn : Option C
deriving Repr, DecidableEq

/-- `Drop for PooledConnection`:
`self.pool.put_back(self.conn.take().unwrap())`.  First component: the
argument reaching `put_back` (`none` models the `unwrap` panic of an
already-emptied handle, which `put_back` never sees); second: the handle
after `take`, its slot left `None`. -/
def pooledConnectionDrop {C : Type} (h : PooledConnection C) :
    Option C × PooledConnection C :=
  (h.conn, ⟨none⟩)

/-! The claims. -/

/-- C1: In every reachable state of the pool — any interleaving of
construction, replenishment tasks, checkouts and returns — the shared
counters satisfy `0 ≤ num_conns ≤ pool_size` and
`idle.len() ≤ num_conns` (`pool_size` comes from a `u32`, whence the bound
`poolSize < 2^32`). -/
theorem c1_counters_invariant {C : Type} {poolSize : Nat}
    (hps : poolSize < U32LIM) {s : PoolState C}
    (h : Reachable C poolSize s) :
    0 ≤ s.internals.num_conns ∧ s.internals.num_conns ≤ poolSize ∧
      s.internals.conns.length ≤ s.internals.num_conns := by
  obtain ⟨h1, h2⟩ := poolInv_reachable hps h
  omega

/-- Witness for C1: the invariant at the freshly constructed pool with
`pool_size = 2`. -/
theorem c1_counters_invariant_witness :
    0 ≤ (initState Unit 2).internals.num_conns ∧
      (initState Unit 2).internals.num_conns ≤ 2 ∧
      (initState Unit 2).internals.conns.length
        ≤ (initState Unit 2).internals.num_conns :=
  c1_counters_invariant (by decide) Reachable.init

/-- C10: Both `num_conns -= 1` sites (the validation-failure branch of
`get` and the broken branch of `put_back`) fire only in states holding a
checked-out connection, and in every reachable such state `num_conns ≥ 1`,
so the `u32` subtraction never wraps: it agrees with plain subtraction. -/
theorem c10_decrement_no_underflow {C : Type} {poolSize : Nat}
    (hps : poolSize < U32LIM) {s : PoolState C}
    (h : Reachable C poolSize s) (hco : 1 ≤ s.checkedOut) :
    1 ≤ s.internals.num_conns ∧
      decU32 s.internals.num_conns = s.internals.num_conns - 1 := by
  obtain ⟨h1, h2⟩ := poolInv_reachable hps h
  have hge : 1 ≤ s.internals.num_conns := by omega
  exact ⟨hge, decU32_eq_of_le hge (by omega)⟩

/-- Witness for C10: the state after one replenishment and one checkout in
a `pool_size = 1` pool, where a decrement site is enabled. -/
theorem c10_decrement_no_underflow_witness :
    1 ≤ (⟨⟨[], 1⟩, 1, 0⟩ : PoolState Unit).internals.num_conns ∧
      decU32 (⟨⟨[], 1⟩, 1, 0⟩ : PoolState Unit).internals.num_conns
        = (⟨⟨[], 1⟩, 1, 0⟩ : PoolState Unit).internals.num_conns - 1 := by
  have h1 : Reachable Unit 1 (⟨⟨[()], 1⟩, 0, 0⟩ : PoolState Unit) :=
    Reachable.step Reachable.init
      (Step.replenishOk (initState Unit 1) () (by decide))
  have h2 : Reachable Unit 1 (⟨⟨[], 1⟩, 1, 0⟩ : PoolState Unit) :=
    Reachable.step h1
      (Step.checkout (⟨⟨[()], 1⟩, 0, 0⟩ : PoolState Unit) () [] rfl)
  exact c10_decrement_no_underflow (by decide) h2 (by decide)

/-- C2, counterexample: the claim says a `get` whose wait ends with the
idle queue non-empty serves that connection instead of returning
`GetTimeout`.  In the code the `None` arm returns `Err(GetTimeout)` as soon
as `wait_timeout` reports `!no_timeout`, without re-checking `conns`: here
the wakeup internals hold a connection (`conns = [()]`), yet the outcome is
`timeout`, not `ok ()`. -/
theorem c2_counterexample :
    (⟨⟨[()], 1⟩, false⟩ : Interference Unit).internals.conns ≠ [] ∧
      (get_loop false (fun _ : Unit => (none : Option Unit))
        [⟨⟨[()], 1⟩, false⟩] ⟨[], 0⟩).outcome = GetOutcome.timeout ∧
      (get_loop false (fun _ : Unit => (none : Option Unit))
        [⟨⟨[()], 1⟩, false⟩] ⟨[], 0⟩).outcome ≠ GetOutcome.ok () := by
  decide

/-- C2, amended: when the idle queue is empty, `get` waits, and a wait that
reports a timeout makes `get` return `GetTimeout` immediately — whatever
the internals (in particular the idle queue) look like at wakeup. -/
theorem c2_timeout_amended {C E : Type} (test : Bool) (isValid : C → Option E)
    (i : PoolInternals C) (ev : Interference C) (evs : List (Interference C))
    (hconns : i.conns = []) (hto : ev.noTimeout = false) :
    (get_loop test isValid (ev :: evs) i).outcome = GetOutcome.timeout := by
  simp only [get_loop, hconns, hto]
  simp

/-- Witness for the amended C2. -/
theorem c2_timeout_amended_witness :
    (⟨[], 3⟩ : PoolInternals Unit).conns = [] ∧
      (⟨⟨[], 0⟩, false⟩ : Interference Unit).noTimeout = false ∧
      (get_loop true (fun _ : Unit => (none : Option Unit))
        [⟨⟨[], 0⟩, false⟩] ⟨[], 3⟩).outcome = GetOutcome.timeout :=
  ⟨rfl, rfl, c2_timeout_amended true _ _ _ _ rfl rfl⟩

/-- C3: checkout takes `pop_front` of the idle queue and return appends
with `push_back`, so a queue holding A, B, C in that order serves A, then
B, then C over three sequential `get` calls. -/
theorem c3_fifo_order {C E : Type} (isValid : C → Option E) (a b c : C)
    (n : Nat) :
    get_loop (E := E) false isValid [] ⟨[a, b, c], n⟩
      = ⟨GetOutcome.ok a, ⟨[b, c], n⟩, [], []⟩ ∧
    get_loop (E := E) false isValid [] ⟨[b, c], n⟩
      = ⟨GetOutcome.ok b, ⟨[c], n⟩, [], []⟩ ∧
    get_loop (E := E) false isValid [] ⟨[c], n⟩
      = ⟨GetOutcome.ok c, ⟨[], n⟩, [], []⟩ ∧
    ∀ (x : C) (i : PoolInternals C),
      (put_back false x i).internals.conns = i.conns ++ [x] := by
  refine ⟨?_, ?_, ?_, fun x i => rfl⟩ <;> simp [get_loop]

/-- C4: when `test_on_check_out` is set and `is_valid` fails on the popped
connection, that `get` call hands the error to the error handler, on
relocking decrements `num_conns`, schedules an immediate (`delay = 0`)
replenishment, drops the connection, and continues its loop: the final
outcome is whatever the continued loop produces (never an error surfaced
from validation — `GetOutcome` has no such case). -/
theorem c4_validation_failure {C E : Type} (isValid : C → Option E)
    (conn : C) (e : E) (rest : List C) (num : Nat)
    (ev : Interference C) (evs : List (Interference C))
    (hv : isValid conn = some e) :
    (get_loop true isValid (ev :: evs) ⟨conn :: rest, num⟩).errors
      = e :: (get_loop true isValid evs
          ⟨ev.internals.conns, decU32 ev.internals.num_conns⟩).errors ∧
    (get_loop true isValid (ev :: evs) ⟨conn :: rest, num⟩).scheduled
      = 0 :: (get_loop true isValid evs
          ⟨ev.internals.conns, decU32 ev.internals.num_conns⟩).scheduled ∧
    (get_loop true isValid (ev :: evs) ⟨conn :: rest, num⟩).outcome
      = (get_loop true isValid evs
          ⟨ev.internals.conns, decU32 ev.internals.num_conns⟩).outcome ∧
    (get_loop true isValid (ev :: evs) ⟨conn :: rest, num⟩).internals
      = (get_loop true isValid evs
          ⟨ev.internals.conns, decU32 ev.internals.num_conns⟩).internals := by
  refine ⟨?_, ?_, ?_, ?_⟩ <;> simp only [get_loop, hv, if_true]

/-- Witness for C4: a pool of one stale connection; the replacement oracle
state is what the relock finds. -/
theorem c4_validation_failure_witness :
    (fun _ : Unit => some 0) () = some 0 ∧
      (get_loop true (fun _ : Unit => some 0)
        [⟨⟨[()], 1⟩, true⟩] ⟨[()], 1⟩).errors
        = 0 :: (get_loop true (fun _ : Unit => some 0) []
            ⟨[()], decU32 1⟩).errors :=
  ⟨rfl, (c4_validation_failure (fun _ : Unit => some 0) () 0 [] 1
    ⟨⟨[()], 1⟩, true⟩ [] rfl).1⟩

/-- C5: on release, `has_broken` is consulted before the mutex is acquired
(the action trace starts `callHasBroken, lockMutex`); when it is true the
connection is dropped, `num_conns` is decremented and nothing is notified
or scheduled; when it is false the connection is pushed to the back of the
idle queue and `notify_one` signals exactly one waiter. -/
theorem c5_put_back_protocol {C : Type} (conn : C) (i : PoolInternals C) :
    put_back true conn i = ⟨⟨i.conns, decU32 i.num_conns⟩, false, []⟩ ∧
    put_back false conn i = ⟨⟨i.conns ++ [conn], i.num_conns⟩, true, []⟩ ∧
    ∀ broken : Bool, ∃ rest : List PutBackAction,
      put_back_actions broken
        = PutBackAction.callHasBroken :: PutBackAction.lockMutex :: rest := by
  refine ⟨rfl, rfl, fun broken => ?_⟩
  cases broken
  · exact ⟨[.pushIdle, .notifyOne, .unlockMutex], rfl⟩
  · exact ⟨[.decNumConns, .unlockMutex], rfl⟩

/-- C6: the replenishment task on `Ok(conn)` pushes the connection exactly
once, increments `num_conns` exactly once and signals the condition
variable; on `Err` it hands the error to the handler and reschedules itself
with a fixed 1-second delay — and it retries without bound: after any
number `n` of consecutive failures it has handled `n` errors, changed
nothing, and is still scheduled. -/
theorem c6_replenish_task {C E : Type} (conn : C) (err : E)
    (i : PoolInternals C) :
    add_connection_task (E := E) (Except.ok conn) i
      = ⟨⟨i.conns ++ [conn], incU32 i.num_conns⟩, true, [], []⟩ ∧
    add_connection_task (Except.error err) i
      = ⟨⟨i.conns, i.num_conns⟩, false, [err], [1]⟩ ∧
    ∀ n : Nat,
      add_connection_retries (List.replicate n (Except.error err)) i
        = (i, false, n) := by
  refine ⟨rfl, rfl, fun n => ?_⟩
  induction n with
  | zero => rfl
  | succ k ih =>
      rw [List.replicate_succ]
      simp [add_connection_retries, ih]

/-- C7: `Pool::new` starts from an empty idle queue with `num_conns = 0`
and submits `pool_size` immediate (`delay = 0`) replenishment tasks; with
`initialization_fail_fast` set it waits with timeout `connection_timeout`
on the predicate `num_conns == pool_size`, and returns
`InitializationError` whenever the predicate fails at the deadline — also
when some (but not all) connections opened. -/
theorem c7_new_fail_fast {C : Type} (config : Config)
    (waitInternals : PoolInternals C)
    (hff : config.initialization_fail_fast = true)
    (hneq : waitInternals.num_conns ≠ config.pool_size) :
    (new config waitInternals).internals = ⟨[], 0⟩ ∧
    (new config waitInternals).scheduled
      = List.replicate config.pool_size 0 ∧
    (new config waitInternals).waitTimeout
      = some config.connection_timeout ∧
    (new config waitInternals).result
      = Except.error InitializationError.mk := by
  have hbeq : (waitInternals.num_conns == config.pool_size) = false := by
    simp [hneq]
  refine ⟨?_, ?_, ?_, ?_⟩ <;> simp [new, hff, hbeq]

/-- Witness for C7: `pool_size = 2`, one connection opened by the deadline
(`num_conns = 1 ≠ 2`): the pool is rejected although one open succeeded. -/
theorem c7_new_fail_fast_witness :
    (⟨2, 1, 5, false, true⟩ : Config).initialization_fail_fast = true ∧
      (⟨[()], 1⟩ : PoolInternals Unit).num_conns
        ≠ (⟨2, 1, 5, false, true⟩ : Config).pool_size ∧
      (new (⟨2, 1, 5, false, true⟩ : Config)
        (⟨[()], 1⟩ : PoolInternals Unit)).result
        = Except.error InitializationError.mk :=
  ⟨rfl, by decide,
    (c7_new_fail_fast (⟨2, 1, 5, false, true⟩ : Config)
      (⟨[()], 1⟩ : PoolInternals Unit) rfl (by decide)).2.2.2⟩

/-- C8: dropping the Pool runs `thread_pool.clear()`: every queued
(not-yet-dispatched) task is removed while dispatched tasks keep running;
and `clear` is the only executor operation that removes a queued task
without dispatching it, so individual replenishment tasks are not
cancellable. -/
theorem c8_drop_clears_queue {T : Type} (e : ScheduledThreadPool T)
    (op : ExecOp T) (t : T) (hq : t ∈ e.queued)
    (hout : t ∉ (execStep op e).queued)
    (hrun : t ∉ (execStep op e).running) :
    (poolDrop e).queued = [] ∧ (poolDrop e).running = e.running ∧
      op = ExecOp.clear := by
  refine ⟨rfl, rfl, ?_⟩
  cases op with
  | run_after t' =>
      exact absurd (List.mem_append_left [t'] hq) hout
  | dispatch =>
      cases hq' : e.queued with
      | nil => rw [hq'] at hq; cases hq
      | cons t' rest =>
          rw [hq'] at hq
          rcases List.mem_cons.mp hq with h | h
          · refine absurd ?_ hrun
            simp only [execStep, hq']
            exact List.mem_append_right _ (h ▸ List.mem_singleton_self t')
          · refine absurd ?_ hout
            simp only [execStep, hq']
            exact h
  | clear => rfl

/-- Witness for C8: a single queued task in a single-task executor is
gone after the Pool drop, and only `clear` removed it. -/
theorem c8_drop_clears_queue_witness :
    (5 : Nat) ∈ (⟨[5], []⟩ : ScheduledThreadPool Nat).queued ∧
      (5 : Nat) ∉ (execStep ExecOp.clear
        (⟨[5], []⟩ : ScheduledThreadPool Nat)).queued ∧
      (5 : Nat) ∉ (execStep ExecOp.clear
        (⟨[5], []⟩ : ScheduledThreadPool Nat)).running ∧
      (poolDrop (⟨[5], []⟩ : ScheduledThreadPool Nat)).queued = [] :=
  ⟨by decide, by decide, by decide,
    (c8_drop_clears_queue (⟨[5], []⟩ : ScheduledThreadPool Nat)
      ExecOp.clear 5 (by decide) (by decide) (by decide)).1⟩

/-- C9: dropping a Handle takes the stored connection — leaving `None`
behind — and passes exactly that connection to `put_back`; running the
drop body again on the emptied handle passes nothing to `put_back`, so no
connection is ever returned twice and the connection of a live handle is
returned (not leaked) on release. -/
theorem c9_handle_drop_once {C : Type} (conn : C) :
    pooledConnectionDrop (⟨some conn⟩ : PooledConnection C)
      = (some conn, ⟨none⟩) ∧
    (pooledConnectionDrop
      (pooledConnectionDrop (⟨some conn⟩ : PooledConnection C)).2).1
      = none :=
  ⟨rfl, rfl⟩

end R2d2
